import Mathlib

/-
  Verification of the blink file-watching pipeline (package blink).

  Shallow embedding of the Go sources:
    pkg/blink/event_filter.go  (EventFilter, ShouldIncludePath, ShouldProcessEvent)
    pkg/blink/server.go        (GenFileChangeEvents, eventOpToString, TimeEventMap)
    pkg/blink/webhook.go       (WebhookManager: NewWebhookManager, shouldDebounce, sendWebhook)
    streamer file              (SSEStreamer.handleSSE, WebSocketStreamer.Send, MultiStreamer)
    watcher file               (Watcher.shouldIncludePath, EventBatcher)

  Conventions of the embedding:
  - Go strings are Lean String; character-level work uses List Char via String.data.
  - fsnotify.Op is a bitmask; we embed it as Nat with Create=1, Write=2, Remove=4,
    Rename=8, Chmod=16 (the fsnotify bit order).
  - time.Time / time.Duration are embedded as Int (nanoseconds where units matter).
  - The filesystem (os.Stat) is an explicit oracle parameter
    stat : String -> Option Bool, returning none on error and some isDir on success.
  - Go loops that consume at least one character per iteration are embedded with a
    fuel parameter set to (input length + 1), which is always sufficient, keeping
    every definition structurally recursive and evaluable by decide.
-/

namespace Blink

/-- fsnotify.Event: operation bitmask plus path (Name). -/
structure GoEvent where
  name : String
  op : Nat
  deriving DecidableEq, Repr

/-- fsnotify.Create = 1 shl 0. -/
def opCreate : Nat := 1
/-- fsnotify.Write = 1 shl 1. -/
def opWrite : Nat := 2
/-- fsnotify.Remove = 1 shl 2. -/
def opRemove : Nat := 4
/-- fsnotify.Rename = 1 shl 3. -/
def opRename : Nat := 8
/-- fsnotify.Chmod = 1 shl 4. -/
def opChmod : Nat := 16

/-! ### Go string helpers (strings.Index, strings.Contains, strings.Split, filepath.Base) -/

/-- strings.Index on character lists: index of the first occurrence of sub in s,
none when absent.  strings.Index(s, "") = 0, matched by List.isPrefixOf [] = true. -/
def indexSub (s sub : List Char) : Option Nat :=
  if sub.isPrefixOf s then some 0
  else
    match s with
    | [] => none
    | _ :: rest => (indexSub rest sub).map (· + 1)

/-- strings.Contains on character lists. -/
def containsSub (s sub : List Char) : Bool :=
  (indexSub s sub).isSome

/-- Worker for strings.Split with a nonempty separator.  Each step consumes at
least one character of s, so fuel = s.length + 1 always suffices. -/
def splitSubF : Nat → List Char → List Char → List (List Char)
  | 0, _, _ => [[]]
  | fuel + 1, s, sub =>
    if sub.isPrefixOf s then
      [] :: splitSubF fuel (s.drop sub.length) sub
    else
      match s with
      | [] => [[]]
      | c :: rest =>
        match splitSubF fuel rest sub with
        | [] => [[c]]
        | h :: t => (c :: h) :: t

/-- strings.Split(s, sub): splits around each leftmost non-overlapping instance
of sub.  With an empty separator Go explodes the string into its characters. -/
def splitSub (s sub : List Char) : List (List Char) :=
  if sub.isEmpty then s.map (fun c => [c])
  else splitSubF (s.length + 1) s sub

/-- strings.Split at the String level. -/
def goSplit (s sub : String) : List String :=
  (splitSub s.data sub.data).map (fun cs => String.mk cs)

/-- strings.Contains at the String level. -/
def goContains (s sub : String) : Bool :=
  containsSub s.data sub.data

/-- The characters after the last '/' of the list (the whole list when no '/'
occurs), which is how filepath.Base selects the final path element. -/
def afterLastSlash (cs : List Char) : List Char :=
  cs.foldl (fun acc c => if c = '/' then [] else acc ++ [c]) []

/-- filepath.Base: empty path gives ".", trailing slashes are stripped, the last
element is taken, and an all-slash path gives "/".  (Unix: no volume names.) -/
def basename (path : String) : String :=
  if path = "" then "."
  else
    let stripped := (path.data.reverse.dropWhile (fun c => c = '/')).reverse
    let last := afterLastSlash stripped
    if last.isEmpty then "/" else String.mk last

/-- filepath.ToSlash replaces every OS path separator with '/'; on Unix the
separator already is '/', so the embedded function is the identity. -/
def toSlash (path : String) : String := path

/-! ### Go glob matcher (path/filepath.Match, Unix rules)

filepath.Match(pattern, name) returns (matched, err).  Every caller in this
repository discards the error, and Go guarantees matched = false whenever
err is non-nil, so the embedding computes the matched boolean directly,
mapping every error path to false.  Character classes are embedded at the
rune (Char) level. -/

/-- getEsc of path/match.go: reads one possibly backslash-escaped character of
a range; errors (none) on empty input, '-' or ']' at the front, a dangling
escape, or when nothing follows the consumed character. -/
def getEsc (chunk : List Char) : Option (Char × List Char) :=
  match chunk with
  | [] => none
  | c :: rest =>
    if c = '-' ∨ c = ']' then none
    else if c = '\\' then
      match rest with
      | [] => none
      | r :: rest2 => if rest2.isEmpty then none else some (r, rest2)
    else if rest.isEmpty then none else some (c, rest)

/-- The range-parsing loop of matchChunk's '[' case: consumes lo(-hi) pairs
until an eligible ']', accumulating whether r falls in some range.  Returns
none on a malformed pattern.  getEsc consumes at least one character, so
fuel = chunk.length + 1 suffices. -/
def parseRangesF : Nat → Char → List Char → Nat → Bool → Option (Bool × List Char)
  | 0, _, _, _, _ => none
  | fuel + 1, r, chunk, nrange, acc =>
    match chunk with
    | ']' :: rest =>
      -- an eligible ']' closes the class; a leading ']' is rejected by getEsc
      if nrange > 0 then some (acc, rest) else none
    | _ =>
      match getEsc chunk with
      | none => none
      | some (lo, chunk1) =>
        match chunk1 with
        | '-' :: chunk1a =>
          match getEsc chunk1a with
          | none => none
          | some (hi, chunk2) =>
            parseRangesF fuel r chunk2 (nrange + 1)
              (acc || (decide (lo ≤ r) && decide (r ≤ hi)))
        | _ =>
          parseRangesF fuel r chunk1 (nrange + 1)
            (acc || (decide (lo ≤ r) && decide (r ≤ lo)))

/-- matchChunk of path/filepath/match.go: matches chunk against the beginning
of s, tracking the failed flag exactly as the source does (after a failure the
chunk is still parsed for well-formedness).  Returns none for ErrBadPattern and
some (rest, ok) otherwise.  Every iteration consumes at least one character of
chunk, so fuel = chunk.length + 1 suffices. -/
def matchChunkF : Nat → List Char → List Char → Bool → Option (List Char × Bool)
  | 0, _, _, _ => none
  | fuel + 1, chunk, s, failed0 =>
    match chunk with
    | [] => if failed0 then some ([], false) else some (s, true)
    | c :: chunkRest =>
      let failed := failed0 || s.isEmpty
      if c = '[' then
        -- read the rune from s only when the match has not failed
        let r : Char := if failed then Char.ofNat 0 else s.headD (Char.ofNat 0)
        let s1 : List Char := if failed then s else s.tail
        -- possible negation
        let nx : Bool × List Char :=
          match chunkRest with
          | '^' :: tl => (true, tl)
          | _ => (false, chunkRest)
        match parseRangesF (nx.2.length + 1) r nx.2 0 false with
        | none => none
        | some (m, chunkAfter) =>
          matchChunkF fuel chunkAfter s1 (failed || (m == nx.1))
      else if c = '?' then
        let failedQ := failed || (s.headD (Char.ofNat 0) == '/')
        let s1 := if failed then s else s.tail
        matchChunkF fuel chunkRest s1 failedQ
      else if c = '\\' then
        match chunkRest with
        | [] => none
        | d :: chunkRest2 =>
          let failedL := failed || (d != s.headD (Char.ofNat 0))
          let s1 := if failed then s else s.tail
          matchChunkF fuel chunkRest2 s1 failedL
      else
        let failedL := failed || (c != s.headD (Char.ofNat 0))
        let s1 := if failed then s else s.tail
        matchChunkF fuel chunkRest s1 failedL

/-- matchChunk with its always-sufficient fuel. -/
def matchChunk (chunk s : List Char) : Option (List Char × Bool) :=
  matchChunkF (chunk.length + 1) chunk s false

/-- The leading-star loop of scanChunk: strips '*'s, reporting whether any was
seen. -/
def dropStars : List Char → Bool × List Char
  | '*' :: rest => (true, (dropStars rest).2)
  | l => (false, l)

/-- The scanning loop of scanChunk: cuts the pattern at the first bare '*'
outside a character class, keeping escaped pairs together. -/
def scanChunkLoop (inrange : Bool) : List Char → List Char × List Char
  | [] => ([], [])
  | c :: rest =>
    if c = '\\' then
      match rest with
      | [] => ([c], [])
      | d :: rest2 =>
        let r := scanChunkLoop inrange rest2
        (c :: d :: r.1, r.2)
    else if c = '*' ∧ ¬inrange then ([], c :: rest)
    else
      let inrange2 := if c = '[' then true else if c = ']' then false else inrange
      let r := scanChunkLoop inrange2 rest
      (c :: r.1, r.2)

/-- The star loop of Match: tries to match chunk at successive positions of
name, never skipping past a '/'.  Returns the remaining name on success; none
covers both exhaustion and a bad pattern, which all produce matched = false in
Match. -/
def starLoop (chunk patRest : List Char) : List Char → Option (List Char)
  | [] => none
  | c :: nameRest =>
    if c = '/' then none
    else
      match matchChunk chunk nameRest with
      | none => none
      | some (t, true) =>
        if patRest.isEmpty ∧ ¬t.isEmpty then starLoop chunk patRest nameRest
        else some t
      | some (_, false) => starLoop chunk patRest nameRest

/-- The main loop of filepath.Match, fuelled: every iteration consumes at
least one pattern character, so fuel = pattern.length + 1 suffices.  Returns
the matched boolean; error returns of the source are matched = false. -/
def goMatchF : Nat → List Char → List Char → Bool
  | 0, _, _ => false
  | fuel + 1, pattern, name =>
    match pattern with
    | [] => name.isEmpty
    | _ :: _ =>
      let sd := dropStars pattern
      let star := sd.1
      let sc := scanChunkLoop false sd.2
      let chunk := sc.1
      let patRest := sc.2
      if star ∧ chunk.isEmpty then
        -- a trailing '*' matches the rest unless it contains a separator
        !(name.contains '/')
      else
        match matchChunk chunk name with
        | none => false
        | some (t, ok) =>
          if ok ∧ (t.isEmpty ∨ ¬patRest.isEmpty) then goMatchF fuel patRest t
          else if star then
            match starLoop chunk patRest name with
            | some t2 => goMatchF fuel patRest t2
            | none => false
          else false

/-- filepath.Match on character lists (matched boolean only; errors map to
false as every caller in the repository does). -/
def goMatchL (pattern name : List Char) : Bool :=
  goMatchF (pattern.length + 1) pattern name

/-- filepath.Match at the String level. -/
def goMatch (pattern name : String) : Bool :=
  goMatchL pattern.data name.data

/-! ### EventFilter (pkg/blink/event_filter.go) -/

/-- The recursive-matching branch of ShouldIncludePath for patterns containing
two consecutive stars: the pattern is split on each occurrence of two stars and
every nonempty fragment must occur in the path, in order, each search starting
where the previous fragment ended. -/
def doubleStarMatch (pattern normalizedPath : String) : Bool :=
  doubleStarGo (goSplit pattern "**") normalizedPath.data 0
where
  doubleStarGo : List String → List Char → Nat → Bool
    | [], _, _ => true
    | part :: rest, pathChars, lastIndex =>
      if part = "" then doubleStarGo rest pathChars lastIndex
      else
        match indexSub (pathChars.drop lastIndex) part.data with
        | none => false
        | some idx => doubleStarGo rest pathChars (lastIndex + idx + part.length)

/-- One pattern's matching test of ShouldIncludePath.  The exclude loop and the
include loop of the source run the identical four checks per pattern (the
exclude loop returning false on a hit, the include loop returning true):
base-name glob, two-star ordered fragment containment, full-path or
path-segment glob, and non-glob substring containment.  Match errors are
discarded (matched stays false). -/
def patternMatchesPath (pattern normalizedPath baseName : String) : Bool :=
  goMatch pattern baseName
  || (goContains pattern "**" && doubleStarMatch pattern normalizedPath)
  || (goContains pattern "*" &&
      (goMatch pattern normalizedPath
       || (goSplit normalizedPath "/").any (fun part => goMatch pattern part)))
  || (!goContains pattern "*" && goContains normalizedPath pattern)

/-- An ASCII approximation of unicode.IsSpace, sufficient for the pattern
strings this code handles. -/
def isSpaceChar (c : Char) : Bool :=
  c = ' ' ∨ c = '\t' ∨ c = '\n' ∨ c = '\r'

/-- strings.TrimSpace. -/
def trimSpace (s : String) : String :=
  String.mk (((s.data.dropWhile isSpaceChar).reverse.dropWhile isSpaceChar).reverse)

/-- strings.HasPrefix. -/
def strStarts (s pre : String) : Bool :=
  pre.data.isPrefixOf s.data

/-- strings.HasSuffix. -/
def strEnds (s suf : String) : Bool :=
  suf.data.reverse.isPrefixOf s.data.reverse

/-- parsePatterns of event_filter.go: comma-split, trim, drop empties,
normalize to slashes, and expand the special two-star prefix and suffix forms
into an extra derived pattern. -/
def parsePatterns (patterns : String) : List String :=
  if patterns = "" then []
  else
    (goSplit patterns ",").flatMap (fun p0 =>
      let p := trimSpace p0
      if p = "" then []
      else
        let p := toSlash p
        if strStarts p "**/" && !(strStarts p "**/*") then
          [p, String.mk (p.data.drop 3)]
        else if strEnds p "/**" && !(strEnds p "/**/*") then
          [p, p ++ "/*"]
        else [p])

/-- A custom filter slot: Go permits registering a nil function, which the
event loop skips. -/
def CustomFilter := Option (String → Bool → Bool)

/-- EventFilter of event_filter.go.  The include/ignore event maps hold
operation bitmasks; only membership matters, so they are embedded as lists. -/
structure EventFilter where
  includePatterns : List String
  excludePatterns : List String
  includeEvents : List Nat
  ignoreEvents : List Nat
  customFilters : List CustomFilter

/-- EventFilter.ShouldIncludePath: exclude patterns are checked first and win;
with no include patterns everything not excluded is included; otherwise some
include pattern must match. -/
def shouldIncludePath (f : EventFilter) (path : String) : Bool :=
  let normalizedPath := toSlash path
  let baseName := basename normalizedPath
  if f.excludePatterns.any (fun p => patternMatchesPath p normalizedPath baseName) then
    false
  else if f.includePatterns.isEmpty then
    true
  else
    f.includePatterns.any (fun p => patternMatchesPath p normalizedPath baseName)

/-- The os.Stat-derived isDir flag handed to custom filters: false both for
files and when Stat errors. -/
def isDirOf (stat : String → Option Bool) (path : String) : Bool :=
  (stat path).getD false

/-- The custom-filter loop of ShouldProcessEvent: non-nil filters run in
registration order and any one returning false rejects the event. -/
def customFilterRejects (f : EventFilter) (stat : String → Option Bool)
    (name : String) : Bool :=
  f.customFilters.any (fun cf =>
    match cf with
    | some g => !(g name (isDirOf stat name))
    | none => false)

/-- The operation gates of ShouldProcessEvent: any intersection with the
ignore set rejects; a nonempty include set must be intersected; otherwise the
event passes. -/
def passesEventTypeGates (f : EventFilter) (op : Nat) : Bool :=
  if f.ignoreEvents.any (fun igOp => decide (op &&& igOp ≠ 0)) then
    false
  else if !f.includeEvents.isEmpty then
    f.includeEvents.any (fun incOp => decide (op &&& incOp ≠ 0))
  else
    true

/-- EventFilter.ShouldProcessEvent: custom filters first, then the path
patterns via ShouldIncludePath, then the ignore/include operation sets. -/
def shouldProcessEvent (f : EventFilter) (stat : String → Option Bool)
    (e : GoEvent) : Bool :=
  if customFilterRejects f stat e.name then false
  else if !(shouldIncludePath f e.name) then false
  else passesEventTypeGates f e.op

/-- The exclude-pattern test of ShouldIncludePath, exposed for the statements
below: whether some exclude pattern matches the (normalized) path. -/
def excludeMatches (f : EventFilter) (path : String) : Bool :=
  f.excludePatterns.any (fun p =>
    patternMatchesPath p (toSlash path) (basename (toSlash path)))

/-! ### Watcher (watcher file): config and its internal gates -/

/-- WatcherConfig of the watcher file. -/
structure WatcherConfig where
  rootPath : String
  includePatterns : List String
  excludePatterns : List String
  includeEvents : List String
  ignoreEvents : List String
  recursive : Bool
  handlerDelay : Int
  pollInterval : Int

/-- Watcher.shouldIncludePath: the body is a to-do stub that includes
everything regardless of the configured patterns. -/
def watcherShouldIncludePath (_w : WatcherConfig) (_path : String) : Bool :=
  true

/-- Watcher.shouldProcessEventType: the body is a to-do stub that processes
every event type regardless of the configured event lists. -/
def watcherShouldProcessEventType (_w : WatcherConfig) (_eventType : Nat) : Bool :=
  true

/-- The gate sequence of Watcher.handleFileEvent: an event reaches
scheduleHandler exactly when both internal gates pass. -/
def watcherFileEventAccepted (w : WatcherConfig) (e : GoEvent) : Bool :=
  watcherShouldIncludePath w e.name && watcherShouldProcessEventType w e.op

/-! ### EventBatcher (watcher file) -/

/-- EventBatcher.Add: appends the event to the pending slice and reports
whether a new flush handler was scheduled (the source schedules one unless the
slice now holds more than one event). -/
def batcherAdd (pending : List GoEvent) (e : GoEvent) : List GoEvent × Bool :=
  let pending2 := pending ++ [e]
  if pending2.length > 1 then (pending2, false) else (pending2, true)

/-- EventBatcher.AddBatch: ignores an empty batch, otherwise appends all
events and schedules a handler when the batcher held none before. -/
def batcherAddBatch (pending : List GoEvent) (es : List GoEvent) :
    List GoEvent × Bool :=
  if es.isEmpty then (pending, false)
  else (pending ++ es, pending.isEmpty)

/-- EventBatcher.processEvents after its delay: takes the whole accumulated
slice, resets the slice to empty, and emits the batch to the channel when it
is nonempty (an empty batch emits nothing). -/
def batcherFlush (pending : List GoEvent) : List GoEvent × List GoEvent :=
  (pending, [])

/-- One batcher call, for describing call sequences. -/
inductive BatcherOp where
  | add (e : GoEvent)
  | addBatch (es : List GoEvent)

/-- Running a sequence of Add/AddBatch calls against the pending slice. -/
def batcherRun : List GoEvent → List BatcherOp → List GoEvent
  | pending, [] => pending
  | pending, BatcherOp.add e :: rest => batcherRun (batcherAdd pending e).1 rest
  | pending, BatcherOp.addBatch es :: rest =>
    batcherRun (batcherAddBatch pending es).1 rest

/-- The events an operation contributes, in order. -/
def batcherOpEvents : BatcherOp → List GoEvent
  | BatcherOp.add e => [e]
  | BatcherOp.addBatch es => es

/-! ### WebhookManager (pkg/blink/webhook.go) -/

/-- WebhookConfig.  Durations are nanoseconds as Go time.Duration;
headers keep order-insensitive association-list form. -/
structure WebhookConfig where
  url : String
  method : String
  headers : List (String × String)
  timeout : Int
  debounceDuration : Int
  maxRetries : Int

/-- The default-filling prologue of NewWebhookManager (identical in both
variants of the file): zero-valued Method, Timeout, DebounceDuration and
MaxRetries are replaced with POST, 5s, 100ms and 3. -/
def newWebhookManagerConfig (c : WebhookConfig) : WebhookConfig :=
  { url := c.url
    method := if c.method = "" then "POST" else c.method
    headers := c.headers
    timeout := if c.timeout = 0 then 5000000000 else c.timeout
    debounceDuration := if c.debounceDuration = 0 then 100000000 else c.debounceDuration
    maxRetries := if c.maxRetries = 0 then 3 else c.maxRetries }

/-- The recentEvents map of WebhookManager: path to last-seen time. -/
def DebounceMap := List (String × Int)

/-- Map lookup on the association list. -/
def debLookup (m : List (String × Int)) (path : String) : Option Int :=
  (m.find? (fun kv => kv.1 == path)).map (fun kv => kv.2)

/-- Map store m[path] = now. -/
def debStore (m : List (String × Int)) (path : String) (now : Int) :
    List (String × Int) :=
  (path, now) :: m.filter (fun kv => !(kv.1 == path))

/-- WebhookManager.shouldDebounce: suppresses (true) when the path was seen
strictly less than DebounceDuration ago, leaving the map untouched; otherwise
records now for the path, evicts entries older than ten debounce windows, and
reports false so that processEvents schedules a sendWebhook delivery. -/
def shouldDebounce (d : Int) (m : List (String × Int)) (now : Int)
    (path : String) : Bool × List (String × Int) :=
  match debLookup m path with
  | some lastSeen =>
    if now - lastSeen < d then (true, m)
    else
      ((false : Bool),
        (debStore m path now).filter (fun kv => !(decide (now - kv.2 > d * 10))))
  | none =>
    ((false : Bool),
      (debStore m path now).filter (fun kv => !(decide (now - kv.2 > d * 10))))

/-- Feeding a sequence of same-path events (by arrival time) through the
debounce stage, counting how many are not suppressed, i.e. how many delivery
attempt chains processEvents starts. -/
def debounceRun (d : Int) (path : String) :
    List (String × Int) → List Int → Nat
  | _, [] => 0
  | m, t :: rest =>
    let r := shouldDebounce d m t path
    (if r.1 then 0 else 1) + debounceRun d path r.2 rest

/-- One HTTP attempt's outcome: none is a transport error (client.Do returned
a non-nil error), some code is a completed response with that status. -/
def AttemptOutcome := Option Nat

/-- The retry loop of the second sendWebhook variant (the one using the logger
package): attempt i succeeds only on a 2xx status; otherwise, while retries
remain, sleep (i+1) seconds and try again.  Arguments are the next attempt
index and the retries still allowed (maxRetries - i); the result is the number
of attempts issued and the list of sleeps in milliseconds. -/
def retryLoopStatus (resp : Nat → Option Nat) : Nat → Nat → Nat × List Nat
  | i, left =>
    let ok := match resp i with
      | some code => decide (200 ≤ code) && decide (code < 300)
      | none => false
    if ok then (1, [])
    else
      match left with
      | 0 => (1, [])
      | l + 1 =>
        let r := retryLoopStatus resp (i + 1) l
        (r.1 + 1, (i + 1) * 1000 :: r.2)

/-- sendWebhook (second variant): the whole retry loop from attempt 0. -/
def sendWebhookStatusAttempts (maxRetries : Nat) (resp : Nat → Option Nat) :
    Nat × List Nat :=
  retryLoopStatus resp 0 maxRetries

/-- The retry loop of the first sendWebhook variant: it breaks as soon as
client.Do returns a nil error, regardless of the HTTP status; only transport
errors are retried, sleeping (i+1) * 500ms. -/
def retryLoopTransport (resp : Nat → Option Nat) : Nat → Nat → Nat × List Nat
  | i, left =>
    if (resp i).isSome then (1, [])
    else
      match left with
      | 0 => (1, [])
      | l + 1 =>
        let r := retryLoopTransport resp (i + 1) l
        (r.1 + 1, (i + 1) * 500 :: r.2)

/-- sendWebhook (first variant): the whole retry loop from attempt 0. -/
def sendWebhookTransportAttempts (maxRetries : Nat) (resp : Nat → Option Nat) :
    Nat × List Nat :=
  retryLoopTransport resp 0 maxRetries

/-! ### MultiStreamer (streamer file) -/

/-- MultiStreamer.Start: starts adapters in order but returns the first error
immediately, skipping the rest.  The result pairs the returned error with the
number of adapters whose Start was invoked. -/
def multiStart : List (Option String) → Option String × Nat
  | [] => (none, 0)
  | e :: rest =>
    match e with
    | some err => (some err, 1)
    | none =>
      let r := multiStart rest
      (r.1, r.2 + 1)

/-- The shared loop of MultiStreamer.Stop and MultiStreamer.Send: every
adapter is invoked and lastErr keeps the most recent failure. -/
def multiAllLastErr (lastErr : Option String) :
    List (Option String) → Option String × Nat
  | [] => (lastErr, 0)
  | e :: rest =>
    let newLast := match e with
      | some err => some err
      | none => lastErr
    let r := multiAllLastErr newLast rest
    (r.1, r.2 + 1)

/-- MultiStreamer.Stop. -/
def multiStop (results : List (Option String)) : Option String × Nat :=
  multiAllLastErr none results

/-- MultiStreamer.Send. -/
def multiSend (results : List (Option String)) : Option String × Nat :=
  multiAllLastErr none results

/-! ### WebSocketStreamer.Send and the wire schema (streamer file, server.go) -/

/-- eventOpToString of server.go: note the exact equality switch, so an
operation with several bits set (or an unknown bit) maps to the empty
string. -/
def eventOpToString (op : Nat) : String :=
  if op = opCreate then "create"
  else if op = opWrite then "write"
  else if op = opRemove then "remove"
  else if op = opRename then "rename"
  else if op = opChmod then "chmod"
  else ""

/-- The inverse direction a client uses (the switch of parseEvents): the five
operation names back to their bits. -/
def opFromString (s : String) : Option Nat :=
  if s = "create" then some opCreate
  else if s = "write" then some opWrite
  else if s = "remove" then some opRemove
  else if s = "rename" then some opRename
  else if s = "chmod" then some opChmod
  else none

/-- The JSON object WebSocketStreamer.Send serializes: a type tag, the epoch
milliseconds timestamp, the path and the operation string. -/
structure WSMessage where
  msgType : String
  timestamp : Int
  path : String
  operation : String
  deriving DecidableEq

/-- WebSocketStreamer.Send: a configured filter that rejects the event drops
it (nil return, no message); otherwise the wire message is built from the
event and the current epoch-millisecond clock and fanned out to every client
channel. -/
def wsSend (filter : Option EventFilter) (stat : String → Option Bool)
    (nowMillis : Int) (e : GoEvent) : Option WSMessage :=
  match filter with
  | some f =>
    if !(shouldProcessEvent f stat e) then none
    else some { msgType := "event", timestamp := nowMillis,
                path := e.name, operation := eventOpToString e.op }
  | none =>
    some { msgType := "event", timestamp := nowMillis,
           path := e.name, operation := eventOpToString e.op }

/-! ### SSE refresh cycle (SSEStreamer.handleSSE and GenFileChangeEvents)

The TimeEventMap keys are the distinct arrival times; a pending snapshot is
embedded as a list of (time, event) pairs with the map's content.  sort.Sort
on timeKeys orders the keys ascending by time, embedded with insertion sort.
Each emitted frame is the (id, path) pair WriteEvent writes before the id is
incremented. -/

/-- The pending snapshot sorted ascending by arrival time. -/
def sortByTime (pending : List (Int × GoEvent)) : List (Int × GoEvent) :=
  List.insertionSort (fun a b => a.1 ≤ b.1) pending

/-- RemoveOldEvents: drops entries whose key is before now - maxAge. -/
def removeOldEvents (now maxAge : Int) (pending : List (Int × GoEvent)) :
    List (Int × GoEvent) :=
  pending.filter (fun kv => !(decide (kv.1 < now - maxAge)))

/-- The inner emission loop of one refresh: walks the time-sorted events,
skips any the filter rejects, and writes a frame only when the path differs
from the previously written one (prevname).  Returns the frames in order, the
next id, and the final prevname. -/
def sseEmit (filter : Option EventFilter) (stat : String → Option Bool) :
    Nat → String → List GoEvent → List (Nat × String) × Nat × String
  | id, prevname, [] => ([], id, prevname)
  | id, prevname, ev :: rest =>
    let rejected := match filter with
      | some f => !(shouldProcessEvent f stat ev)
      | none => false
    if rejected then sseEmit filter stat id prevname rest
    else if ev.name ≠ prevname then
      let r := sseEmit filter stat (id + 1) ev.name rest
      ((id, ev.name) :: r.1, r.2)
    else
      sseEmit filter stat id prevname rest

/-- One refresh cycle: nothing happens on an empty map; otherwise old entries
are purged, the remainder is sorted by arrival time, and the emission loop
runs with a fresh prevname but the connection-lifetime id counter.
GenFileChangeEvents is the filterless instance of the same loop. -/
def sseCycle (filter : Option EventFilter) (stat : String → Option Bool)
    (now maxAge : Int) (pending : List (Int × GoEvent)) (id : Nat) :
    List (Nat × String) × Nat :=
  if pending.isEmpty then ([], id)
  else
    let purged := removeOldEvents now maxAge pending
    let sorted := sortByTime purged
    let r := sseEmit filter stat id "" (sorted.map (fun kv => kv.2))
    (r.1, r.2.1)

/-- A connection's lifetime: successive refresh cycles, each seeing its own
clock and pending snapshot, threaded through the single id counter.  Returns
all frames in write order and the final id. -/
def sseConnection (filter : Option EventFilter) (stat : String → Option Bool) :
    List (Int × Int × List (Int × GoEvent)) → Nat → List (Nat × String) × Nat
  | [], id => ([], id)
  | (now, maxAge, pending) :: rest, id =>
    let r := sseCycle filter stat now maxAge pending id
    let r2 := sseConnection filter stat rest r.2
    (r.1 ++ r2.1, r2.2)

/-! ## Theorems -/

/-- C9: the Watcher's internal gates shouldIncludePath and
shouldProcessEventType return true for every input, so the IncludePatterns,
ExcludePatterns, IncludeEvents and IgnoreEvents fields of WatcherConfig have
no effect on which file events handleFileEvent forwards; pattern and
operation filtering happens only in the separate EventFilter stage. -/
theorem watcher_gates_always_pass :
    ∀ (w : WatcherConfig) (path : String) (eventType : Nat) (e : GoEvent),
      watcherShouldIncludePath w path = true ∧
      watcherShouldProcessEventType w eventType = true ∧
      watcherFileEventAccepted w e = true := by
  intro w path eventType e
  exact ⟨rfl, rfl, rfl⟩

/-- C10: NewWebhookManager replaces every zero-valued configuration field with
its default (Method POST, Timeout 5s, DebounceDuration 100ms, MaxRetries 3),
never yields a zero MaxRetries or zero DebounceDuration, and passes every
non-zero field (and URL and Headers) through unchanged. -/
theorem newWebhookManager_defaults :
    ∀ c : WebhookConfig,
      (c.method = "" → (newWebhookManagerConfig c).method = "POST") ∧
      (c.method ≠ "" → (newWebhookManagerConfig c).method = c.method) ∧
      (c.timeout = 0 → (newWebhookManagerConfig c).timeout = 5000000000) ∧
      (c.timeout ≠ 0 → (newWebhookManagerConfig c).timeout = c.timeout) ∧
      (c.debounceDuration = 0 →
        (newWebhookManagerConfig c).debounceDuration = 100000000) ∧
      (c.debounceDuration ≠ 0 →
        (newWebhookManagerConfig c).debounceDuration = c.debounceDuration) ∧
      (c.maxRetries = 0 → (newWebhookManagerConfig c).maxRetries = 3) ∧
      (c.maxRetries ≠ 0 → (newWebhookManagerConfig c).maxRetries = c.maxRetries) ∧
      (newWebhookManagerConfig c).maxRetries ≠ 0 ∧
      (newWebhookManagerConfig c).debounceDuration ≠ 0 ∧
      (newWebhookManagerConfig c).url = c.url ∧
      (newWebhookManagerConfig c).headers = c.headers := by
  intro c
  refine ⟨?_, ?_, ?_, ?_, ?_, ?_, ?_, ?_, ?_, ?_, rfl, rfl⟩ <;>
    simp only [newWebhookManagerConfig] <;> intros <;> split <;> simp_all

/-- Witness for C10 at a concrete all-defaulted and a concrete explicit
configuration. -/
theorem newWebhookManager_defaults_witness :
    (newWebhookManagerConfig ⟨"http://h", "", [], 0, 0, 0⟩).method = "POST" ∧
    (newWebhookManagerConfig ⟨"http://h", "", [], 0, 0, 0⟩).timeout = 5000000000 ∧
    (newWebhookManagerConfig ⟨"http://h", "", [], 0, 0, 0⟩).debounceDuration = 100000000 ∧
    (newWebhookManagerConfig ⟨"http://h", "", [], 0, 0, 0⟩).maxRetries = 3 ∧
    (newWebhookManagerConfig ⟨"http://h", "PUT", [], 7, 9, 5⟩).method = "PUT" ∧
    (newWebhookManagerConfig ⟨"http://h", "PUT", [], 7, 9, 5⟩).maxRetries = 5 := by
  have h0 := newWebhookManager_defaults ⟨"http://h", "", [], 0, 0, 0⟩
  have h1 := newWebhookManager_defaults ⟨"http://h", "PUT", [], 7, 9, 5⟩
  exact ⟨h0.1 rfl, h0.2.2.1 rfl, h0.2.2.2.2.1 rfl, h0.2.2.2.2.2.2.1 rfl,
    h1.2.1 (by decide), h1.2.2.2.2.2.2.2.1 (by decide)⟩

/-- Helper for C6: running a call sequence appends every call's events in
arrival order. -/
theorem batcherRun_concat (ops : List BatcherOp) :
    ∀ pending : List GoEvent,
      batcherRun pending ops = pending ++ (ops.map batcherOpEvents).flatten := by
  induction ops with
  | nil => intro pending; simp [batcherRun]
  | cons op rest ih =>
    intro pending
    cases op with
    | add e =>
      simp [batcherRun, batcherAdd, batcherOpEvents]
      rw [ih]
      split <;> simp
    | addBatch es =>
      simp [batcherRun, batcherAddBatch, batcherOpEvents]
      split <;> rename_i h <;> rw [ih] <;> simp_all

/-- C6: Add appends the event to the pending slice and schedules a flush
handler exactly when the slice was empty before the addition; AddBatch appends
all given events and schedules a handler only if the batcher was previously
empty (exactly then, for a nonempty batch); the flush takes the entire
accumulated slice as one batch in arrival order and resets the slice; and any
Add/AddBatch sequence accumulates its events in arrival order. -/
theorem eventBatcher_behavior :
    ∀ (pending : List GoEvent) (e : GoEvent) (es : List GoEvent)
      (ops : List BatcherOp),
      (batcherAdd pending e).1 = pending ++ [e] ∧
      ((batcherAdd pending e).2 = true ↔ pending = []) ∧
      (batcherAddBatch pending es).1 = pending ++ es ∧
      ((batcherAddBatch pending es).2 = true → pending = []) ∧
      (es ≠ [] → ((batcherAddBatch pending es).2 = true ↔ pending = [])) ∧
      batcherFlush pending = (pending, []) ∧
      batcherRun [] ops = (ops.map batcherOpEvents).flatten := by
  intro pending e es ops
  refine ⟨?_, ?_, ?_, ?_, ?_, rfl, ?_⟩
  · simp [batcherAdd]; split <;> simp
  · simp [batcherAdd]
    cases pending <;> simp
  · simp [batcherAddBatch]; split <;> simp_all
  · simp [batcherAddBatch]; split <;> simp_all
  · intro hes
    simp [batcherAddBatch]
    split <;> simp_all
  · simpa using batcherRun_concat ops []

/-- Witness for C6 at concrete calls. -/
theorem eventBatcher_behavior_witness :
    (batcherAdd [] ⟨"a", 1⟩).2 = true ∧
    (batcherAdd [⟨"a", 1⟩] ⟨"b", 2⟩).2 = false ∧
    ((batcherAddBatch [] [⟨"a", 1⟩, ⟨"b", 2⟩]).2 = true ↔ ([] : List GoEvent) = []) ∧
    batcherRun [] [BatcherOp.add ⟨"a", 1⟩, BatcherOp.addBatch [⟨"b", 2⟩, ⟨"c", 4⟩]]
      = [⟨"a", 1⟩, ⟨"b", 2⟩, ⟨"c", 4⟩] := by
  have h := eventBatcher_behavior [] ⟨"a", 1⟩ [⟨"a", 1⟩, ⟨"b", 2⟩]
    [BatcherOp.add ⟨"a", 1⟩, BatcherOp.addBatch [⟨"b", 2⟩, ⟨"c", 4⟩]]
  refine ⟨h.2.1.mpr rfl, ?_, h.2.2.2.2.1 (by decide), by
    have h7 := h.2.2.2.2.2.2
    simpa [batcherOpEvents] using h7⟩
  · have h2 := (eventBatcher_behavior [⟨"a", 1⟩] ⟨"b", 2⟩ [] []).2.1
    simp only [Bool.not_eq_true] at h2 ⊢
    rcases hb : (batcherAdd [⟨"a", 1⟩] ⟨"b", 2⟩).2 with _ | _
    · rfl
    · exact absurd (h2.mp hb) (by simp)

/-- Helper for C5: the shared Stop/Send loop visits every adapter and returns
the last error seen (or the accumulator when none occurs). -/
theorem multiAllLastErr_spec (l : List (Option String)) :
    ∀ acc : Option String,
      multiAllLastErr acc l =
        (match (l.filterMap id).getLast? with
         | some e => some e
         | none => acc, l.length) := by
  induction l with
  | nil => intro acc; rfl
  | cons x rest ih =>
    intro acc
    cases x with
    | none =>
      simp only [multiAllLastErr, List.filterMap_cons, id_eq, List.length_cons,
        ih acc]
    | some e =>
      simp only [multiAllLastErr, List.filterMap_cons, id_eq, List.length_cons,
        ih (some e)]
      cases hfm : rest.filterMap id with
      | nil => simp [hfm]
      | cons y ys =>
        simp only [hfm, List.getLast?_cons_cons]
        cases hg : (y :: ys).getLast? with
        | some z => simp
        | none =>
          have hne : (y :: ys).getLast?.isSome := by
            rw [List.getLast?_isSome]
            simp
          rw [hg] at hne
          simp at hne

/-- C5 counterexample: Start stops at the first failing adapter instead of
invoking every one (here only 1 of 2 adapters is started), and Stop returns
the last error encountered, not the first. -/
theorem multiStreamer_claim_counterexample :
    multiStart [some "e1", none] = (some "e1", 1) ∧
    (multiStart [some "e1", none]).2 ≠ [some "e1", none].length ∧
    multiStop [some "e1", some "e2"] = (some "e2", 2) ∧
    (multiStop [some "e1", some "e2"]).1 ≠ some "e1" := by
  refine ⟨rfl, by decide, rfl, by decide⟩

/-- C5 amended: Start invokes adapters in order but short-circuits, returning
the first error and never starting the adapters after the failing one (all are
started when every Start succeeds); Stop and Send do invoke every adapter
regardless of failures, but return the last error encountered (nil when all
succeed). -/
theorem multiStreamer_behavior :
    (∀ (pre rest : List (Option String)) (err : String),
      (∀ x ∈ pre, x = none) →
      multiStart (pre ++ some err :: rest) = (some err, pre.length + 1)) ∧
    (∀ l : List (Option String), (∀ x ∈ l, x = none) →
      multiStart l = (none, l.length)) ∧
    (∀ l : List (Option String),
      multiStop l = (match (l.filterMap id).getLast? with
        | some e => some e
        | none => none, l.length)) ∧
    (∀ l : List (Option String),
      multiSend l = (match (l.filterMap id).getLast? with
        | some e => some e
        | none => none, l.length)) := by
  refine ⟨?_, ?_, ?_, ?_⟩
  · intro pre rest err hpre
    induction pre with
    | nil => rfl
    | cons x xs ih =>
      have hx : x = none := hpre x (by simp)
      subst hx
      simp only [List.cons_append, multiStart, List.length_cons, List.append_eq]
      rw [ih (fun y hy => hpre y (by simp [hy]))]
  · intro l hl
    induction l with
    | nil => rfl
    | cons x xs ih =>
      have hx : x = none := hl x (by simp)
      subst hx
      simp only [multiStart, List.length_cons]
      rw [ih (fun y hy => hl y (by simp [hy]))]
  · intro l; exact multiAllLastErr_spec l none
  · intro l; exact multiAllLastErr_spec l none

/-- Witness for C5 (amended) at concrete adapter lists. -/
theorem multiStreamer_behavior_witness :
    multiStart [none, some "boom", none] = (some "boom", 2) ∧
    multiStart [none, none] = (none, 2) ∧
    multiStop [none, some "a", some "b"] = (some "b", 3) ∧
    multiSend [some "a", none] = (some "a", 2) := by
  have h1 := multiStreamer_behavior.1 [none] [none] "boom" (by intro x hx; simpa using hx)
  have h2 := multiStreamer_behavior.2.1 [none, none] (by intro x hx; simp at hx; exact hx)
  have h3 := multiStreamer_behavior.2.2.1 [none, some "a", some "b"]
  have h4 := multiStreamer_behavior.2.2.2 [some "a", none]
  exact ⟨h1, h2, by simpa using h3, by simpa using h4⟩

/-- Helper for C3: under an endpoint answering every attempt with HTTP 500,
the status-checking retry loop started at attempt i with l retries left makes
l + 1 attempts and sleeps (i+1)s, (i+2)s, ... between them. -/
theorem retryLoopStatus_all500 (resp : Nat → Option Nat)
    (hresp : ∀ j, resp j = some 500) :
    ∀ (l i : Nat),
      retryLoopStatus resp i l
        = (l + 1, (List.range l).map (fun k => (i + k + 1) * 1000)) := by
  intro l
  induction l with
  | zero =>
    intro i
    simp [retryLoopStatus, hresp i]
  | succ n ih =>
    intro i
    rw [retryLoopStatus]
    simp only [hresp i]
    have : (decide (200 ≤ 500) && decide (500 < 300)) = false := by decide
    simp only [this]
    rw [ih (i + 1)]
    simp [List.range_succ_eq_map, Nat.add_assoc]
    intro a _
    omega

/-- C3 counterexample: the first sendWebhook variant breaks out of its loop as
soon as client.Do returns without a transport error, so an endpoint answering
HTTP 500 on every attempt receives exactly one attempt, not MaxRetries + 1. -/
theorem webhook_retry_claim_counterexample :
    sendWebhookTransportAttempts 3 (fun _ => some 500) = (1, []) ∧
    (sendWebhookTransportAttempts 3 (fun _ => some 500)).1 ≠ 3 + 1 := by
  exact ⟨rfl, by decide⟩

/-- C3 amended: against an endpoint answering every attempt with HTTP 500,
the status-checking sendWebhook variant issues exactly MaxRetries + 1
attempts, sleeping a linearly increasing (i+1)-second backoff between
consecutive attempts, and its loop then ends (no further attempts); the other
variant retries only transport errors and stops after a single attempt. -/
theorem webhook_retry_behavior :
    ∀ (maxRetries : Nat) (resp : Nat → Option Nat),
      (∀ j, resp j = some 500) →
      sendWebhookStatusAttempts maxRetries resp
          = (maxRetries + 1, (List.range maxRetries).map (fun k => (k + 1) * 1000)) ∧
      sendWebhookTransportAttempts maxRetries resp = (1, []) := by
  intro maxRetries resp hresp
  constructor
  · rw [sendWebhookStatusAttempts, retryLoopStatus_all500 resp hresp maxRetries 0]
    simp
  · rw [sendWebhookTransportAttempts, retryLoopTransport.eq_def]
    simp [hresp 0]

/-- Witness for C3 (amended) at MaxRetries = 2. -/
theorem webhook_retry_behavior_witness :
    sendWebhookStatusAttempts 2 (fun _ => some 500) = (3, [1000, 2000]) ∧
    sendWebhookTransportAttempts 2 (fun _ => some 500) = (1, []) := by
  have h := webhook_retry_behavior 2 (fun _ => some 500) (fun j => rfl)
  exact ⟨h.1.trans (by decide), h.2⟩

/-- Helper for C4: when shouldDebounce does not suppress, its new map is the
stored-then-swept one. -/
theorem shouldDebounce_false_state (d : Int) (m : List (String × Int))
    (now : Int) (path : String)
    (h : (shouldDebounce d m now path).1 = false) :
    (shouldDebounce d m now path).2
      = (debStore m path now).filter (fun kv => !(decide (now - kv.2 > d * 10))) := by
  simp only [shouldDebounce] at h ⊢
  cases hl : debLookup m path with
  | none => simp
  | some lastSeen =>
    simp only [hl] at h ⊢
    split at h
    · simp at h
    · split
      · simp_all
      · rfl

/-- Helper for C4: the freshly stored timestamp survives the sweep (the entry
is zero old, and ten debounce windows are nonnegative). -/
theorem debLookup_after_update (d now : Int) (m : List (String × Int))
    (path : String) (hd : 0 ≤ d) :
    debLookup ((debStore m path now).filter
        (fun kv => !(decide (now - kv.2 > d * 10)))) path = some now := by
  have hkeep : (!(decide (now - now > d * 10))) = true := by
    simp
    omega
  simp only [debStore, debLookup, List.filter_cons, hkeep, if_true]
  rw [List.find?_cons_of_pos]
  · rfl
  · simp

/-- Helper for C4: with a recorded same-window timestamp in the map, every
further event of the window is suppressed and the map never changes. -/
theorem debounceRun_suppressed (d : Int) (path : String) (t0 : Int) :
    ∀ (times : List Int) (m : List (String × Int)) (ts : Int),
      (∀ t ∈ times, t0 ≤ t ∧ t < t0 + d) →
      debLookup m path = some ts → t0 ≤ ts →
      debounceRun d path m times = 0 := by
  intro times
  induction times with
  | nil => intro m ts _ _ _; rfl
  | cons t rest ih =>
    intro m ts hw hl hts
    have ht := hw t (by simp)
    have hlt : t - ts < d := by omega
    have hsd : shouldDebounce d m t path = (true, m) := by
      simp [shouldDebounce, hl, hlt]
    simp only [debounceRun, hsd]
    simpa using ih m ts (fun x hx => hw x (by simp [hx])) hl hts

/-- C4: shouldDebounce suppresses exactly when the map holds a last-seen entry
for the path strictly younger than DebounceDuration; suppression leaves the
map untouched; otherwise the path's timestamp becomes the current time (and a
delivery is scheduled, counted by debounceRun); and any number of same-path
events inside one debounce window starts at most one delivery chain. -/
theorem webhook_debounce_behavior :
    ∀ (d now : Int) (m : List (String × Int)) (path : String),
      ((shouldDebounce d m now path).1 = true ↔
        ∃ lastSeen, debLookup m path = some lastSeen ∧ now - lastSeen < d) ∧
      ((shouldDebounce d m now path).1 = true →
        (shouldDebounce d m now path).2 = m) ∧
      (0 ≤ d → (shouldDebounce d m now path).1 = false →
        debLookup (shouldDebounce d m now path).2 path = some now) ∧
      (∀ (t0 : Int) (times : List Int),
        (∀ t ∈ times, t0 ≤ t ∧ t < t0 + d) →
        debounceRun d path m times ≤ 1) := by
  intro d now m path
  refine ⟨?_, ?_, ?_, ?_⟩
  · cases hl : debLookup m path with
    | none => simp [shouldDebounce, hl]
    | some lastSeen =>
      by_cases hlt : now - lastSeen < d
      · simp [shouldDebounce, hl, hlt]
      · simp [shouldDebounce, hl, hlt]
  · intro h
    cases hl : debLookup m path with
    | none => simp [shouldDebounce, hl] at h
    | some lastSeen =>
      by_cases hlt : now - lastSeen < d
      · simp [shouldDebounce, hl, hlt]
      · simp [shouldDebounce, hl, hlt] at h
  · intro hd h
    rw [shouldDebounce_false_state d m now path h]
    exact debLookup_after_update d now m path hd
  · intro t0 times
    clear now
    induction times generalizing m with
    | nil => intro _; simp [debounceRun]
    | cons t rest ih =>
      intro hw
      have ht := hw t (by simp)
      have hd : 0 ≤ d := by omega
      cases hb : (shouldDebounce d m t path).1 with
      | true =>
        have hm2 : (shouldDebounce d m t path).2 = m := by
          cases hl : debLookup m path with
          | none => simp [shouldDebounce, hl] at hb
          | some lastSeen =>
            by_cases hlt : t - lastSeen < d
            · simp [shouldDebounce, hl, hlt]
            · simp [shouldDebounce, hl, hlt] at hb
        simp only [debounceRun, hb, hm2]
        simpa using ih m (fun x hx => hw x (by simp [hx]))
      | false =>
        have hl2 : debLookup (shouldDebounce d m t path).2 path = some t := by
          rw [shouldDebounce_false_state d m t path hb]
          exact debLookup_after_update d t m path hd
        simp only [debounceRun, hb]
        have hz := debounceRun_suppressed d path t0 rest
          (shouldDebounce d m t path).2 t
          (fun x hx => hw x (by simp [hx])) hl2 ht.1
        simp [hz]

/-- Witness for C4 at concrete map states and a concrete burst. -/
theorem webhook_debounce_behavior_witness :
    (shouldDebounce 100 [("a", 0)] 30 "a").1 = true ∧
    (shouldDebounce 100 [("a", 0)] 30 "a").2 = [("a", 0)] ∧
    debLookup (shouldDebounce 100 [("a", 0)] 150 "a").2 "a" = some 150 ∧
    debounceRun 100 "a" [] [0, 30, 60] ≤ 1 := by
  have h1 := webhook_debounce_behavior 100 30 [("a", 0)] "a"
  have h2 := webhook_debounce_behavior 100 150 [("a", 0)] "a"
  have h3 := webhook_debounce_behavior 100 0 [] "a"
  refine ⟨h1.1.mpr ⟨0, rfl, by decide⟩,
    h1.2.1 (h1.1.mpr ⟨0, rfl, by decide⟩),
    h2.2.2.1 (by decide) ?_,
    h3.2.2.2 0 [0, 30, 60] (by decide)⟩
  cases hb : (shouldDebounce 100 [("a", 0)] 150 "a").1 with
  | false => rfl
  | true =>
    have := h2.1.mp hb
    rcases this with ⟨ls, hls, hlt⟩
    simp [debLookup] at hls
    omega

/-- C7 counterexample: an event whose operation bitset has both the Create and
Write bits set is serialized with operation "", because eventOpToString
switches on exact equality; the empty string is none of the five operation
names and cannot be deserialized back. -/
theorem ws_send_claim_counterexample :
    wsSend none (fun _ => none) 1000 ⟨"a", 3⟩
        = some ⟨"event", 1000, "a", ""⟩ ∧
    (["create", "write", "remove", "rename", "chmod"].contains "") = false ∧
    opFromString "" = none := by
  exact ⟨rfl, by decide, rfl⟩

/-- C7 amended: every message the WebSocket Send emits carries type "event",
the event path and the epoch-millisecond timestamp; the operation field is one
of the five names, deserializable back to the original operation, exactly when
the event operation equals one single known bit, and is the empty string for
multi-bit or unknown operation sets. -/
theorem ws_send_schema :
    ∀ (filter : Option EventFilter) (stat : String → Option Bool)
      (now : Int) (e : GoEvent) (msg : WSMessage),
      wsSend filter stat now e = some msg →
      msg.msgType = "event" ∧ msg.path = e.name ∧ msg.timestamp = now ∧
      msg.operation = eventOpToString e.op ∧
      ((e.op = opCreate ∨ e.op = opWrite ∨ e.op = opRemove ∨
          e.op = opRename ∨ e.op = opChmod) →
        (["create", "write", "remove", "rename", "chmod"].contains
            msg.operation) = true ∧
        opFromString msg.operation = some e.op) := by
  intro filter stat now e msg hsend
  have hmsg : msg = ⟨"event", now, e.name, eventOpToString e.op⟩ := by
    cases filter with
    | none =>
      simp [wsSend] at hsend
      exact hsend.symm
    | some f =>
      simp [wsSend] at hsend
      exact hsend.2.symm
  subst hmsg
  refine ⟨rfl, rfl, rfl, rfl, ?_⟩
  intro hop
  rcases hop with h | h | h | h | h <;> rw [h] <;> exact ⟨rfl, rfl⟩

/-- Witness for C7 (amended) at a concrete single-bit Send. -/
theorem ws_send_schema_witness :
    "event" = "event" ∧ "a" = "a" ∧ (7 : Int) = 7 ∧
    "create" = eventOpToString opCreate ∧
    ((["create", "write", "remove", "rename", "chmod"].contains "create") = true ∧
      opFromString "create" = some opCreate) := by
  have h := ws_send_schema none (fun _ => none) 7 ⟨"a", opCreate⟩
    ⟨"event", 7, "a", "create"⟩ rfl
  exact ⟨h.1, rfl, h.2.2.1, h.2.2.2.1, h.2.2.2.2 (Or.inl rfl)⟩

/-- C8 counterexample: with a registered custom filter that rejects
directories, the same (path, operation) event is accepted when os.Stat says
the path is a file and rejected when it says directory, so ShouldProcessEvent
is not a pure function of (path, operation) alone. -/
theorem shouldProcessEvent_not_stat_independent :
    shouldProcessEvent ⟨[], [], [], [], [some (fun _ isDir => !isDir)]⟩
        (fun _ => some false) ⟨"x", 1⟩ = true ∧
    shouldProcessEvent ⟨[], [], [], [], [some (fun _ isDir => !isDir)]⟩
        (fun _ => some true) ⟨"x", 1⟩ = false := by
  exact ⟨rfl, rfl⟩

/-- C8 amended: for a fixed filter configuration whose custom-filter chain is
empty, ShouldProcessEvent is a pure function of the event's (path, operation)
pair: its result does not depend on the os.Stat oracle.  With custom filters
registered the result may additionally depend on the Stat-derived isDir flag,
as the counterexample shows. -/
theorem shouldProcessEvent_pure_without_custom_filters :
    ∀ (f : EventFilter) (stat1 stat2 : String → Option Bool) (e : GoEvent),
      f.customFilters = [] →
      shouldProcessEvent f stat1 e = shouldProcessEvent f stat2 e := by
  intro f stat1 stat2 e h
  simp [shouldProcessEvent, customFilterRejects, h]

/-- Witness for C8 (amended): a custom-filter-free configuration decides the
same way under two different filesystem oracles. -/
theorem shouldProcessEvent_pure_witness :
    shouldProcessEvent ⟨[], ["*.log"], [], [], []⟩ (fun _ => some true) ⟨"x", 1⟩
      = shouldProcessEvent ⟨[], ["*.log"], [], [], []⟩ (fun _ => none) ⟨"x", 1⟩ :=
  shouldProcessEvent_pure_without_custom_filters ⟨[], ["*.log"], [], [], []⟩
    (fun _ => some true) (fun _ => none) ⟨"x", 1⟩ rfl

/-- C1: ShouldProcessEvent returns false whenever some exclude pattern matches
the event path (by base-name glob, two-star ordered containment, segment glob
or non-glob substring, all inside patternMatchesPath) or some registered
custom predicate rejects it, regardless of the include patterns; and it
returns true whenever the include-pattern set is empty, no exclude pattern
matches, every custom predicate accepts, and the operation passes the
ignore/include operation gates. -/
theorem shouldProcessEvent_gate_order :
    ∀ (f : EventFilter) (stat : String → Option Bool) (e : GoEvent),
      (excludeMatches f e.name = true → shouldProcessEvent f stat e = false) ∧
      (customFilterRejects f stat e.name = true →
        shouldProcessEvent f stat e = false) ∧
      (f.includePatterns = [] → excludeMatches f e.name = false →
        customFilterRejects f stat e.name = false →
        passesEventTypeGates f e.op = true →
        shouldProcessEvent f stat e = true) := by
  intro f stat e
  refine ⟨?_, ?_, ?_⟩
  · intro hexcl
    have hpath : shouldIncludePath f e.name = false := by
      simp only [excludeMatches] at hexcl
      simp [shouldIncludePath, hexcl]
    by_cases hc : customFilterRejects f stat e.name
    · simp [shouldProcessEvent, hc]
    · simp [shouldProcessEvent, hc, hpath]
  · intro hc
    simp [shouldProcessEvent, hc]
  · intro hinc hexcl hc hop
    have hpath : shouldIncludePath f e.name = true := by
      simp only [excludeMatches] at hexcl
      simp [shouldIncludePath, hexcl, hinc]
    simp [shouldProcessEvent, hc, hpath, hop]

/-- Witness for C1: a matching exclude pattern rejects, and a fully clean
event under an empty include set is accepted. -/
theorem shouldProcessEvent_gate_order_witness :
    excludeMatches ⟨[], ["*.log"], [], [], []⟩ "app.log" = true ∧
    shouldProcessEvent ⟨[], ["*.log"], [], [], []⟩ (fun _ => none)
      ⟨"app.log", 1⟩ = false ∧
    shouldProcessEvent ⟨[], ["*.log"], [], [], []⟩
      (fun _ => none) ⟨"main.go", 1⟩ = true := by
  have h1 := shouldProcessEvent_gate_order ⟨[], ["*.log"], [], [], []⟩
    (fun _ => none) ⟨"app.log", 1⟩
  have h2 := shouldProcessEvent_gate_order ⟨[], ["*.log"], [], [], []⟩
    (fun _ => none) ⟨"main.go", 1⟩
  exact ⟨by decide, h1.1 (by decide),
    h2.2.2 rfl (by decide) (by decide) (by decide)⟩

/-- Helper for C2: the emission loop's frames carry ids in [id, nextId) in
strictly increasing order, adjacent frames have distinct paths, and the first
frame's path differs from the incoming prevname. -/
theorem sseEmit_spec (filter : Option EventFilter) (stat : String → Option Bool) :
    ∀ (l : List GoEvent) (id : Nat) (prev : String),
      id ≤ (sseEmit filter stat id prev l).2.1 ∧
      (∀ x ∈ (sseEmit filter stat id prev l).1,
        id ≤ x.1 ∧ x.1 < (sseEmit filter stat id prev l).2.1) ∧
      List.Pairwise (fun a b => a.1 < b.1) (sseEmit filter stat id prev l).1 ∧
      List.Chain' (fun a b => a.2 ≠ b.2) (sseEmit filter stat id prev l).1 ∧
      (∀ x ∈ (sseEmit filter stat id prev l).1.head?, x.2 ≠ prev) := by
  intro l
  induction l with
  | nil =>
    intro id prev
    refine ⟨Nat.le_refl id, ?_, ?_, ?_, ?_⟩ <;> simp [sseEmit]
  | cons ev rest ih =>
    intro id prev
    cases hb : (match filter with
        | some f => !(shouldProcessEvent f stat ev)
        | none => false) with
    | true =>
      have he : sseEmit filter stat id prev (ev :: rest)
          = sseEmit filter stat id prev rest := by
        simp [sseEmit, hb]
      rw [he]
      exact ih id prev
    | false =>
      by_cases hne : ev.name = prev
      · have he : sseEmit filter stat id prev (ev :: rest)
            = sseEmit filter stat id prev rest := by
          simp [sseEmit, hb, hne]
        rw [he]
        exact ih id prev
      · have he : sseEmit filter stat id prev (ev :: rest)
            = ((id, ev.name) :: (sseEmit filter stat (id + 1) ev.name rest).1,
               (sseEmit filter stat (id + 1) ev.name rest).2) := by
          simp [sseEmit, hb, hne]
        rcases ih (id + 1) ev.name with ⟨hle, hbounds, hpw, hch, hhead⟩
        rw [he]
        refine ⟨?_, ?_, ?_, ?_, ?_⟩
        · exact Nat.le_trans (Nat.le_succ id) hle
        · intro x hx
          rcases List.mem_cons.mp hx with hx1 | hx2
          · subst hx1
            exact ⟨Nat.le_refl id, Nat.lt_of_lt_of_le (Nat.lt_succ_self id) hle⟩
          · have h2 := hbounds x hx2
            exact ⟨Nat.le_trans (Nat.le_succ id) h2.1, h2.2⟩
        · refine List.pairwise_cons.mpr ⟨?_, hpw⟩
          intro x hx
          exact Nat.lt_of_lt_of_le (Nat.lt_succ_self id) (hbounds x hx).1
        · refine List.chain'_cons'.mpr ⟨?_, hch⟩
          intro b hbh
          exact (hhead b hbh).symm
        · intro x hx
          simp only [List.head?_cons, Option.mem_def, Option.some.injEq] at hx
          subst hx
          exact hne

/-- Helper for C2: one refresh cycle's id bounds, strictly increasing ids and
adjacent-distinct paths. -/
theorem sseCycle_spec (filter : Option EventFilter) (stat : String → Option Bool)
    (now maxAge : Int) (pending : List (Int × GoEvent)) (id : Nat) :
    id ≤ (sseCycle filter stat now maxAge pending id).2 ∧
    (∀ x ∈ (sseCycle filter stat now maxAge pending id).1,
      id ≤ x.1 ∧ x.1 < (sseCycle filter stat now maxAge pending id).2) ∧
    List.Pairwise (fun a b => a.1 < b.1)
      (sseCycle filter stat now maxAge pending id).1 ∧
    List.Chain' (fun a b => a.2 ≠ b.2)
      (sseCycle filter stat now maxAge pending id).1 := by
  by_cases hp : pending.isEmpty
  · simp [sseCycle, hp]
  · have h := sseEmit_spec filter stat
      ((sortByTime (removeOldEvents now maxAge pending)).map (fun kv => kv.2))
      id ""
    have he : sseCycle filter stat now maxAge pending id
        = ((sseEmit filter stat id ""
              ((sortByTime (removeOldEvents now maxAge pending)).map
                (fun kv => kv.2))).1,
           (sseEmit filter stat id ""
              ((sortByTime (removeOldEvents now maxAge pending)).map
                (fun kv => kv.2))).2.1) := by
      simp [sseCycle, hp]
    rw [he]
    exact ⟨h.1, h.2.1, h.2.2.1, h.2.2.2.1⟩

/-- Helper for C2: over a whole connection the id counter only grows and the
frames of all cycles together carry strictly increasing ids. -/
theorem sseConnection_spec (filter : Option EventFilter)
    (stat : String → Option Bool) :
    ∀ (cycles : List (Int × Int × List (Int × GoEvent))) (id : Nat),
      id ≤ (sseConnection filter stat cycles id).2 ∧
      (∀ x ∈ (sseConnection filter stat cycles id).1,
        id ≤ x.1 ∧ x.1 < (sseConnection filter stat cycles id).2) ∧
      List.Pairwise (fun a b => a.1 < b.1)
        (sseConnection filter stat cycles id).1 := by
  intro cycles
  induction cycles with
  | nil =>
    intro id
    refine ⟨Nat.le_refl id, ?_, ?_⟩ <;> simp [sseConnection]
  | cons c rest ih =>
    intro id
    rcases c with ⟨now, maxAge, pending⟩
    have hc := sseCycle_spec filter stat now maxAge pending id
    have hr := ih (sseCycle filter stat now maxAge pending id).2
    have he : sseConnection filter stat ((now, maxAge, pending) :: rest) id
        = ((sseCycle filter stat now maxAge pending id).1
            ++ (sseConnection filter stat rest
                  (sseCycle filter stat now maxAge pending id).2).1,
           (sseConnection filter stat rest
              (sseCycle filter stat now maxAge pending id).2).2) := rfl
    rw [he]
    refine ⟨Nat.le_trans hc.1 hr.1, ?_, ?_⟩
    · intro x hx
      rcases List.mem_append.mp hx with hx1 | hx2
      · have h2 := hc.2.1 x hx1
        exact ⟨h2.1, Nat.lt_of_lt_of_le h2.2 hr.1⟩
      · have h2 := hr.2.1 x hx2
        exact ⟨Nat.le_trans hc.1 h2.1, h2.2⟩
    · refine List.pairwise_append.mpr ⟨hc.2.2.1, hr.2.2, ?_⟩
      intro a ha b hb
      exact Nat.lt_of_lt_of_le (hc.2.1 a ha).2 (hr.2.1 b hb).1

/-- C2 counterexample: a pending snapshot holding events for paths a, b, a at
times 1 < 2 < 3 produces three frames within a single refresh cycle — path a
is written twice, because the source only suppresses an event whose path
equals the immediately previously written one (prevname), not every repeated
path. -/
theorem sse_dedup_claim_counterexample :
    (sseCycle none (fun _ => none) 10 100
        [(1, ⟨"a", 2⟩), (2, ⟨"b", 2⟩), (3, ⟨"a", 2⟩)] 0).1
      = [(0, "a"), (1, "b"), (2, "a")] ∧
    ¬((sseCycle none (fun _ => none) 10 100
        [(1, ⟨"a", 2⟩), (2, ⟨"b", 2⟩), (3, ⟨"a", 2⟩)] 0).1.countP
        (fun fr => fr.2 == "a") ≤ 1) := by
  exact ⟨by decide, by decide⟩

/-- C2 amended: each refresh cycle processes the pending events sorted by
arrival time (insertion sort: sorted and a permutation of the purged
snapshot), and writes a frame only when the event's path differs from the
immediately previously written path, so adjacent frames within a cycle always
have distinct paths — but a path may repeat within one refresh when another
path's event is interleaved between two of its events; each frame's numeric id
strictly increases over the lifetime of the connection. -/
theorem sse_refresh_behavior :
    (∀ (filter : Option EventFilter) (stat : String → Option Bool)
      (now maxAge : Int) (pending : List (Int × GoEvent)) (id : Nat),
      List.Chain' (fun a b => a.2 ≠ b.2)
        (sseCycle filter stat now maxAge pending id).1) ∧
    (∀ (filter : Option EventFilter) (stat : String → Option Bool)
      (cycles : List (Int × Int × List (Int × GoEvent))) (id : Nat),
      List.Pairwise (fun a b => a.1 < b.1)
        (sseConnection filter stat cycles id).1) ∧
    (∀ pending : List (Int × GoEvent),
      List.Sorted (fun a b => a.1 ≤ b.1) (sortByTime pending) ∧
      (sortByTime pending).Perm pending) := by
  refine ⟨?_, ?_, ?_⟩
  · intro filter stat now maxAge pending id
    exact (sseCycle_spec filter stat now maxAge pending id).2.2.2
  · intro filter stat cycles id
    exact (sseConnection_spec filter stat cycles id).2.2
  · intro pending
    constructor
    · haveI : IsTotal (Int × GoEvent) (fun a b => a.1 ≤ b.1) :=
        ⟨fun a b => Int.le_total a.1 b.1⟩
      haveI : IsTrans (Int × GoEvent) (fun a b => a.1 ≤ b.1) :=
        ⟨fun _ _ _ hab hbc => Int.le_trans hab hbc⟩
      exact List.sorted_insertionSort (fun a b => a.1 ≤ b.1) pending
    · exact List.perm_insertionSort (fun a b => a.1 ≤ b.1) pending

end Blink
